import Mathlib

/-!
Verification of `scilpy/io/varian_fdf.py` (Varian FDF reader).

Shallow embedding conventions:
* Python strings are modelled as `String` / `List Char`; the two regular
  patterns of the source (`float_regex`, the digit pattern) are embedded as
  character scanners with the same scan-advance semantics as `re.findall`.
* Python floats originating from header text are modelled as exact
  rationals (`ℚ`); every arithmetic step the code performs on them
  (multiply by 10, divide by a shape entry) is embedded verbatim.
* The binary payload is modelled as a list of byte values; `struct.unpack`
  of 32-bit floats is modelled as grouping bytes into 4-byte words in the
  declared byte order, each decoded float being represented by its 32-bit
  pattern (a bijection onto the IEEE-754 float32 codes, which is all the
  downstream code ever permutes).
* Fallible Python code (exceptions: IndexError, KeyError, ValueError,
  OSError, struct.error, TypeError) is modelled with `Except String`.
-/

set_option maxRecDepth 100000

namespace VarianFdf

/-- Value held by the `endian` entry of the raw header dict.  The Python
dict stores either a string (the initial value `'>'`, a regex capture, or
a normalized marker) or -- in the normalization branch guarded by
`type(raw_header['endian']) is int` -- an int.  Both are embedded. -/
inductive EndianVal where
  | str (s : String)
  | int (n : Int)
deriving DecidableEq

/-- The raw header dict accumulated by `read_file`.  Absent dict keys are
`none`; `shape` and `endian` are initialized exactly as in the source
(`raw_header['shape'] = [-1, -1, 1, 1]`, `raw_header['endian'] = '>'`).
`voxel_dim` and `fmt` are filled in later by `read_file`. -/
structure Header where
  shape : List Int := [-1, -1, 1, 1]
  endian : EndianVal := .str ">"
  nechoes : Option String := none
  echo_no : Option String := none
  nslices : Option String := none
  sl : Option String := none
  array_dim : Option String := none
  studyid : Option String := none
  xyz_units : Option String := none
  t_units : Option String := none
  real_voxel_dim : Option (List ℚ) := none
  orientation : Option (List ℚ) := none
  origin : Option (List ℚ) := none
  voxel_dim : List ℚ := []
  fmt : String := ""
deriving DecidableEq

/-! Exact-rational arithmetic wrappers.  `Rat.mul` / `Rat.add` / `Rat.sub`
/ `Rat.div` do not reduce inside `decide`, while `mkRat` / `Rat.divInt`
do; the embedding therefore performs its (exact) rational arithmetic
through the following wrappers, and the bridge lemmas `qmul_eq`,
`qadd_eq`, `qsub_eq`, `qdiv_eq` below identify them with the ordinary
field operations of `ℚ`. -/

def qmul (a b : ℚ) : ℚ := mkRat (a.num * b.num) (a.den * b.den)

def qadd (a b : ℚ) : ℚ :=
  mkRat (a.num * (b.den : ℤ) + (a.den : ℤ) * b.num) (a.den * b.den)

def qsub (a b : ℚ) : ℚ := qadd a (-b)

def qdiv (a b : ℚ) : ℚ :=
  Rat.divInt (a.num * (b.den : ℤ)) ((a.den : ℤ) * b.num)

theorem qmul_eq (a b : ℚ) : qmul a b = a * b := by
  rw [qmul, Rat.mkRat_eq_divInt, Int.natCast_mul]
  conv_rhs => rw [← Rat.num_divInt_den a, ← Rat.num_divInt_den b]
  rw [Rat.divInt_mul_divInt']

theorem qadd_eq (a b : ℚ) : qadd a b = a + b := by
  rw [qadd, Rat.mkRat_eq_divInt, Int.natCast_mul]
  exact (Rat.add_num_den a b).symm

theorem qsub_eq (a b : ℚ) : qsub a b = a - b := by
  rw [qsub, qadd_eq, sub_eq_add_neg]

theorem qdiv_eq (a b : ℚ) : qdiv a b = a / b := by
  rw [qdiv]
  exact (Rat.div_def' a b).symm

/-- Numeric value of a run of decimal digit characters. -/
def natOfDigits (l : List Char) : Nat :=
  l.foldl (fun acc c => acc * 10 + (c.toNat - Char.toNat ('0'))) 0

/-- A digit run read as a rational integer part. -/
def qOfDigits (l : List Char) : ℚ := (natOfDigits l : ℚ)

/-- A digit run read as a fractional part (digits after the decimal dot). -/
def fracOfDigits (l : List Char) : ℚ :=
  mkRat (natOfDigits l) (10 ^ l.length)

/-- One attempted match of the source's float pattern
`[-+]?[0-9]*\.?[0-9]+` at the head of `l`; on success returns the matched
value and the unconsumed suffix (the regex engine resumes scanning right
after the consumed characters).  A dot not followed by a digit is not
consumed (the engine backtracks to the digits-only form). -/
def matchNum (l : List Char) : Option (ℚ × List Char) :=
  let sl : Bool × List Char :=
    match l with
    | '-' :: t => (true, t)
    | '+' :: t => (false, t)
    | _ => (false, l)
  let sgn : ℚ → ℚ := fun q => if sl.1 then -q else q
  let d1 := sl.2.takeWhile Char.isDigit
  let r1 := sl.2.dropWhile Char.isDigit
  match r1 with
  | '.' :: t =>
      let d2 := t.takeWhile Char.isDigit
      if d2.isEmpty then
        if d1.isEmpty then none else some (sgn (qOfDigits d1), r1)
      else
        some (sgn (qadd (qOfDigits d1) (fracOfDigits d2)),
              t.dropWhile Char.isDigit)
  | _ => if d1.isEmpty then none else some (sgn (qOfDigits d1), r1)

/-- `re.findall(float_regex, line)` as a left-to-right scan: at each
position try `matchNum`; on success emit the value and resume after it, on
failure advance one character.  A successful match always consumes at
least one character, so `l.length` steps of fuel are exact. -/
def findFloatsAux : Nat → List Char → List ℚ
  | 0, _ => []
  | _, [] => []
  | fuel + 1, l@(_ :: t) =>
    match matchNum l with
    | some (q, rest) => q :: findFloatsAux fuel rest
    | none => findFloatsAux fuel t

def findFloats (l : List Char) : List ℚ := findFloatsAux l.length l

/-- `re.findall('(\d+)', line)`: every maximal run of digits, in order. -/
def findDigitsAux : Nat → List Char → List Nat
  | 0, _ => []
  | _, [] => []
  | fuel + 1, c :: t =>
    if c.isDigit then
      natOfDigits (c :: t.takeWhile Char.isDigit) ::
        findDigitsAux fuel (t.dropWhile Char.isDigit)
    else findDigitsAux fuel t

def findDigits (l : List Char) : List Nat := findDigitsAux l.length l

/-- First match of `re.findall('\"[a-z]{2}\"', line)`, without its quotes
(the source then strips them with `.strip('\x22')`). -/
def findUnitAux : Nat → List Char → Option (List Char)
  | 0, _ => none
  | _, [] => none
  | fuel + 1, c :: t =>
    match c, t with
    | '"', a :: b :: '"' :: _ =>
        if a.isLower && b.isLower then some [a, b] else findUnitAux fuel t
    | _, _ => findUnitAux fuel t

def findUnit (l : List Char) : Option (List Char) := findUnitAux l.length l

/-- Does `pat` occur at the head of `l`? -/
def prefixAt : List Char → List Char → Bool
  | [], _ => true
  | _ :: _, [] => false
  | p :: ps, c :: cs => p == c && prefixAt ps cs

def pyFindAux (pat : List Char) : List Char → Nat → Option Nat
  | [], i => if prefixAt pat [] then some i else none
  | l@(_ :: t), i => if prefixAt pat l then some i else pyFindAux pat t (i + 1)

/-- Python `line.find(pat)`: index of the first occurrence, `-1` if none. -/
def pyFind (line pat : List Char) : Int :=
  match pyFindAux pat line 0 with
  | some i => (i : Int)
  | none => -1

/-- Suffix of `l` strictly after the first occurrence of `ch`. -/
def dropThrough (ch : Char) : List Char → Option (List Char)
  | [] => none
  | c :: t => if c == ch then some t else dropThrough ch t

def stripLead (l : List Char) : List Char :=
  (l.dropWhile (· == ' ')).dropWhile (· == '"')

def stripTrail (l : List Char) : List Char :=
  ((l.reverse.dropWhile (· == ' ')).dropWhile (· == '"')).reverse

/-- Embedding of `re.findall('= *\"*(.*[^\"])\"* *;', line)[0]` for the
scalar declarations of this format: the text between the first `=` and
the last `;`, with surrounding spaces and double quotes stripped; `none`
(Python: IndexError) when no such capture exists. -/
def extractNamedValue (line : List Char) : Option String :=
  match dropThrough ('=') line with
  | none => none
  | some afterEq =>
    match dropThrough (';') afterEq.reverse with
    | none => none
    | some revBefore =>
      let v := stripTrail (stripLead revBefore.reverse)
      if v.isEmpty then none else some (String.mk v)

/-- The `(tag_in_file, tag_in_header)` table `find_values` of the source,
in source order (`bigendian` appears twice, as in the source). -/
def find_values : List (String × String) :=
  [("echos", "nechoes"), ("echo_no", "echo_no"), ("nslices", "nslices"),
   ("slice_no", "sl"), ("bigendian", "endian"), ("array_dim", "array_dim"),
   ("bigendian", "endian"), ("studyid", "studyid")]

/-- `raw_header[head_key] = value` for the keys reachable from the table.
The regex capture is a string, so the `endian` entry receives a string. -/
def setField (h : Header) (field : String) (v : String) : Header :=
  if field = "nechoes" then { h with nechoes := some v }
  else if field = "echo_no" then { h with echo_no := some v }
  else if field = "nslices" then { h with nslices := some v }
  else if field = "sl" then { h with sl := some v }
  else if field = "endian" then { h with endian := .str v }
  else if field = "array_dim" then { h with array_dim := some v }
  else if field = "studyid" then { h with studyid := some v }
  else h

/-- The `for file_key, head_key in find_values` loop with `break`: the
first table entry whose tag occurs in the line at index `> 0` wins; its
value is extracted with the named-value regex (IndexError when the regex
finds nothing). -/
def tableStep (h : Header) (line : List Char) : Except String Header :=
  match find_values.find? (fun kv => decide (pyFind line kv.1.data > 0)) with
  | none => .ok h
  | some kv =>
    match extractNamedValue line with
    | none => .error "IndexError: list index out of range"
    | some v => .ok (setField h kv.2 v)

/-- The `if type(raw_header['endian']) is int:` normalization.  The regex
capture assigned by the table is always a string, so in runs of the real
program this branch never fires; it is embedded nonetheless. -/
def endianNorm (h : Header) : Header :=
  match h.endian with
  | .int n => { h with endian := .str (if n ≠ 0 then ">" else "<") }
  | .str _ => h

/-- The `cm` to `mm` rewrite applied to the extracted unit token. -/
def normalizeUnit (u : String) : String := if u = "cm" then "mm" else u

/-- The `if abscissa / elif roi / elif orientation / elif origin /
elif matrix` chain of the line loop. -/
def branchStep (h : Header) (line : List Char) : Except String Header :=
  if pyFind line ("abscissa").data > 0 then
    match findUnit line with
    | none => .error "IndexError: list index out of range"
    | some u =>
        .ok { h with xyz_units := some (normalizeUnit (String.mk u)),
                     t_units := some "unknown" }
  else if pyFind line ("roi").data > 0 then
    .ok { h with real_voxel_dim := some ((findFloats line).map (qmul · 10)) }
  else if pyFind line ("orientation").data > 0 then
    .ok { h with orientation := some (findFloats line) }
  else if pyFind line ("origin").data > 0 then
    .ok { h with origin := some (findFloats line) }
  else if pyFind line ("matrix").data > 0 then
    .ok { h with shape := (findDigits line).map Int.ofNat }
  else .ok h

/-- One iteration of the header line loop: table matching, then the
endian-normalization check, then the special-tag chain. -/
def processLine (h : Header) (line : List Char) : Except String Header := do
  let h1 ← tableStep h line
  branchStep (endianNorm h1) line

/-- The whole line loop over the header text (the lines before the
form-feed sentinel), starting from the initialized header. -/
def parseHeader (lines : List String) : Except String Header :=
  lines.foldlM (fun h l => processLine h l.data) {}

/-- `nb_voxels = np.prod(raw_header['shape'])` followed by the `fmt`
construction: `'<'` prefix when the endian entry contains `'<'`, else
`'>'`.  A Python `'<' in x` on an int endian would raise TypeError. -/
def computeFmt (h : Header) : Except String Header :=
  let nb : Int := h.shape.prod
  match h.endian with
  | .int _ => .error "TypeError: argument of type int is not iterable"
  | .str s =>
      .ok { h with fmt :=
              (if s.data.contains ('<') then "<" else ">") ++ toString nb ++ "f" }

/-! ### Numpy array model

An abstract row-major n-dimensional array: a shape plus the flat data in
row-major (C) order.  Views (`transpose`, `rot90`, slicing) are embedded
extensionally by re-enumerating the result's indices. -/

structure NDArray (α : Type) where
  shape : List Nat
  data : List α
deriving DecidableEq

/-- Product of a shape (number of elements). -/
def prodN (sh : List Nat) : Nat := sh.foldr (· * ·) 1

/-- All multi-indices of a shape, in row-major order. -/
def unravelAll : List Nat → List (List Nat)
  | [] => [[]]
  | d :: rest => (List.range d).flatMap fun i => (unravelAll rest).map (i :: ·)

/-- Row-major flat position of a multi-index. -/
def ravel : List Nat → List Nat → Nat
  | [], _ => 0
  | _ :: _, [] => 0
  | _ :: ds, i :: is => i * prodN ds + ravel ds is

def NDArray.get [Inhabited α] (a : NDArray α) (ix : List Nat) : α :=
  a.data.getD (ravel a.shape ix) default

/-- Rebuild an array with shape `newShape` whose entry at `ix` is the
source entry at `f ix` (the standard way to embed a numpy view). -/
def remap [Inhabited α] (a : NDArray α) (newShape : List Nat)
    (f : List Nat → List Nat) : NDArray α :=
  ⟨newShape, (unravelAll newShape).map fun ix => a.get (f ix)⟩

/-- `np.reshape`: same flat data, new shape; the element counts must
agree.  (The `-1` inferred-dimension feature is not used on any shape this
code produces from a matrix line; numpy rejects the `[-1,-1,1,1]` sentinel
shape, which `toNatShape` below also rejects.) -/
def ndreshape (sh : List Nat) (flat : List α) : Except String (NDArray α) :=
  if prodN sh = flat.length then .ok ⟨sh, flat⟩
  else .error "ValueError: cannot reshape array"

/-- `np.squeeze`: drop all axes of extent 1 (row-major data unchanged). -/
def NDArray.squeeze (a : NDArray α) : NDArray α :=
  ⟨a.shape.filter (· != 1), a.data⟩

/-- `ndarray.transpose(axes)`: `axes` must be a permutation of
`range(ndim)`; result entry at `ix` is the source entry at the index `jx`
with `jx[axes[m]] = ix[m]`. -/
def transposeAx [Inhabited α] (axes : List Nat) (a : NDArray α) :
    Except String (NDArray α) :=
  let n := a.shape.length
  if axes.length = n ∧ (List.range n).all (fun j => axes.contains j) then
    .ok (remap a (axes.map (a.shape.getD · 0))
      (fun ix => (List.range n).map fun j => ix.getD (axes.indexOf j) 0))
  else .error "ValueError: axes do not match array"

/-- `np.rot90(m)` (one 90-degree counterclockwise rotation in the plane of
the first two axes): for shape `(n0, n1, ...)` the result has shape
`(n1, n0, ...)` and entry `[i, j, ...] = m[j, n1 - 1 - i, ...]`; numpy
requires at least two axes. -/
def rot90 [Inhabited α] (a : NDArray α) : Except String (NDArray α) :=
  match a.shape with
  | n0 :: n1 :: rest =>
    .ok (remap a (n1 :: n0 :: rest) fun ix =>
      match ix with
      | i :: j :: r => j :: (n1 - 1 - i) :: r
      | _ => [])
  | _ => .error "ValueError: rot90 requires at least two dimensions"

/-- The `[:, ::-1]` slice: reverse the second axis; requires at least two
axes (on fewer, Python raises IndexError). -/
def flipAxis1 [Inhabited α] (a : NDArray α) : Except String (NDArray α) :=
  match a.shape with
  | n0 :: n1 :: rest =>
    .ok (remap a (n0 :: n1 :: rest) fun ix =>
      match ix with
      | i :: j :: r => i :: (n1 - 1 - j) :: r
      | _ => [])
  | _ => .error "IndexError: too many indices for array"

/-- Shape entries handed to numpy must be nonnegative here: the sentinel
`[-1,-1,1,1]` (never overwritten by a matrix line) holds two `-1`s, which
`np.reshape` rejects, matching the error case. -/
def toNatShape (sh : List Int) : Except String (List Nat) :=
  if ∀ d ∈ sh, 0 ≤ d then .ok (sh.map Int.toNat)
  else .error "ValueError: can only specify one unknown dimension"

/-- Lines 195-203 of the source, the geometric normalization applied to
the flat decoded sequence: reshape by the reversed declared shape,
squeeze, transpose with axes `(2, 1, 0)` when the declared shape's length
differs from 2, then `np.rot90(data, 3)` (three 90-degree rotations) and
the `[:, ::-1]` flip. -/
def normalize_data [Inhabited α] (shape : List Nat) (flat : List α) :
    Except String (NDArray α) := do
  let a0 ← ndreshape shape.reverse flat
  let a1 := a0.squeeze
  let a2 ← if shape.length ≠ 2 then transposeAx [2, 1, 0] a1 else .ok a1
  let a3 ← rot90 a2
  let a4 ← rot90 a3
  let a5 ← rot90 a4
  flipAxis1 a5

/-! ### Binary data decoding -/

/-- Lines 186-188: `fp.seek(-nb_voxels * 4, 2)` followed by
`fp.read(nb_voxels * 4)`.  A seek to a negative absolute position raises
OSError; a nonnegative seek from the end returns exactly the last
`nb_voxels * 4` bytes of the file, wherever the header/payload boundary
lies.  (A negative `nb_voxels` would instead make `struct.unpack` fail on
the malformed format string; both modes are decode errors.) -/
def seekUnpack (fileBytes : List Nat) (nb : Int) : Except String (List Nat) :=
  if 0 ≤ nb ∧ nb.toNat * 4 ≤ fileBytes.length then
    .ok (fileBytes.drop (fileBytes.length - nb.toNat * 4))
  else .error "OSError: Invalid argument"

/-- `struct.unpack('<Nf' | '>Nf', bytes)` with each float32 represented by
its 32-bit code: consecutive 4-byte groups combined in the declared byte
order. -/
def unpackWords (little : Bool) : List Nat → List Nat
  | b0 :: b1 :: b2 :: b3 :: rest =>
    (if little then b0 + 256 * b1 + 65536 * b2 + 16777216 * b3
     else b3 + 256 * b2 + 65536 * b1 + 16777216 * b0) :: unpackWords little rest
  | _ => []

/-- The byte stream of the text segment: each header line's ASCII bytes
followed by the newline byte. -/
def headerBytes (lines : List String) : List Nat :=
  (lines.map fun l => l.data.map Char.toNat ++ [10]).flatten

/-- Line 191-193: `[j/i for i, j in zip(raw_header['shape'],
raw_header['real_voxel_dim'])]`. -/
def voxelDimOf (shape : List Int) (rvd : List ℚ) : List ℚ :=
  List.zipWith (fun (i : Int) (j : ℚ) => qdiv j (i : ℚ)) shape rvd

/-- `read_file`, over a file consisting of `lines`, the form-feed
sentinel, and the trailing `payload` bytes.  Returns, as the source does
on line 205, the pair `(raw_header, data)` -- header first. -/
def read_file (lines : List String) (payload : List Nat) :
    Except String (Header × NDArray Nat) := do
  let h0 ← parseHeader lines
  let h1 ← computeFmt h0
  let nb : Int := h1.shape.prod
  let fileBytes := headerBytes lines ++ [12] ++ payload
  let bytes ← seekUnpack fileBytes nb
  let words := unpackWords (h1.fmt.data.contains ('<')) bytes
  let rvd ← match h1.real_voxel_dim with
    | none => .error "KeyError: real_voxel_dim"
    | some r => pure r
  let h2 := { h1 with voxel_dim := voxelDimOf h1.shape rvd }
  let natSh ← toNatShape h2.shape
  let arr ← normalize_data natSh words
  pure (h2, arr)

/-- `load_fdf` on a path that is not a directory: the source runs
`data, header = read_file(file_path)` and then `return data, header`, so
it hands back `read_file`'s pair unchanged -- and `read_file` returns
`(raw_header, data)`, header first.  The companion `procpar` file is
taken to be absent (its absence only logs a warning and changes no
result). -/
def load_fdf_single (lines : List String) (payload : List Nat) :
    Except String (Header × NDArray Nat) :=
  read_file lines payload

/-! ### Directory assembly -/

/-- Python `float(s)` for the plain decimal strings this format stores in
`array_dim` (e.g. `4.000000`): the whole string must be one decimal
number. -/
def pyFloatOfString (s : String) : Except String ℚ :=
  match matchNum s.data with
  | some (q, []) => .ok q
  | _ => .error "ValueError: could not convert string to float"

/-- Python `int(q)` on a float: truncation toward zero. -/
def pyTrunc (q : ℚ) : Int := if 0 ≤ q then ⌊q⌋ else -⌊-q⌋

/-- Python 3 `round(q)`: round half to even. -/
def pyRound (q : ℚ) : Int :=
  let f := ⌊q⌋
  if qsub q f < mkRat 1 2 then f
  else if mkRat 1 2 < qsub q f then f + 1
  else if f % 2 = 0 then f else f + 1

/-- `np.array(list_of_arrays)`: stacking along a new leading axis; all
member shapes must agree (ragged input is a numpy error). -/
def stack (arrays : List (NDArray Nat)) : Except String (NDArray Nat) :=
  match arrays with
  | [] => .error "ValueError: empty stack"
  | a :: rest =>
    if rest.all fun x => x.shape == a.shape then
      .ok ⟨(a :: rest).length :: a.shape, ((a :: rest).map (·.data)).flatten⟩
    else .error "ValueError: inhomogeneous shapes"

/-- `read_directory` over the ordered per-file results of `read_file`
(directory order, as `zip(*[read_file(fl) for fl in files])` produces
them).  On the empty list the starred `zip` unpacking raises ValueError
before the `if not all_headers` check is ever reached.

Besides the `(data, final_header)` the source returns, the embedding also
returns the post-assembly state of every slice's header dict: in the
source, `final_header = all_headers[0]` makes the consolidated header an
alias of the first slice's header object, and every update
(`final_header['shape'] = ...`, `.extend`, `.append`) mutates that object
in place, so after assembly the first slice's header IS the consolidated
header while the remaining slice headers are untouched. -/
def read_directory (slices : List (Header × NDArray Nat)) :
    Except String (NDArray Nat × Header × List Header) :=
  match slices with
  | [] => .error "ValueError: not enough values to unpack"
  | (h0, a0) :: rest => do
    let restHeaders := rest.map Prod.fst
    let stacked ← stack (a0 :: rest.map Prod.snd)
    if stacked.shape.length < 4 then
      let t ← transposeAx [1, 2, 0] stacked
      let fh1 := { h0 with shape := t.shape.map Int.ofNat }
      let fh2 ←
        if t.shape.length ≠ fh1.voxel_dim.length then
          match fh1.real_voxel_dim with
          | none => .error "KeyError: real_voxel_dim"
          | some rvd =>
            pure { fh1 with
                   voxel_dim := fh1.voxel_dim ++ rvd.drop (t.shape.length - 1) }
        else pure fh1
      let adStr ← match fh2.array_dim with
        | none => .error "KeyError: array_dim"
        | some s => pure s
      let adQ ← pyFloatOfString adStr
      let time : Int := pyTrunc adQ
      if 1 < time then
        let s2 : Nat := t.shape.getD 2 0
        let newShapeI : List Int :=
          [(t.shape.getD 0 0 : Int), (t.shape.getD 1 0 : Int),
           pyRound (qdiv (s2 : ℚ) (time : ℚ)), time]
        let fh3 := { fh2 with shape := newShapeI,
                              voxel_dim := fh2.voxel_dim ++ [1] }
        let natSh ← toNatShape newShapeI
        let res ← ndreshape natSh t.data
        pure (res, fh3, fh3 :: restHeaders)
      else
        pure (t, fh2, fh2 :: restHeaders)
    else
      let t1 ← transposeAx [3, 2, 1, 0] stacked
      let t2 ← transposeAx [1, 0, 2, 3] t1
      let fh := { h0 with shape := t2.shape.map Int.ofNat,
                          voxel_dim := h0.voxel_dim ++ [1] }
      pure (t2, fh, fh :: restHeaders)

/-! ### Generic lemmas about the `Except` monad and the array model -/

theorem ebind_ok {ε α β : Type} (a : α) (f : α → Except ε β) :
    (Except.ok a >>= f) = f a := rfl

theorem ebind_err {ε α β : Type} (e : ε) (f : α → Except ε β) :
    ((Except.error e : Except ε α) >>= f) = .error e := rfl

theorem epure_eq {ε α : Type} (a : α) : (pure a : Except ε α) = .ok a := rfl

theorem except_bind_ok {ε α β : Type} (e : Except ε α) (f : α → Except ε β)
    (b : β) : (e >>= f) = .ok b ↔ ∃ a, e = .ok a ∧ f a = .ok b := by
  cases e with
  | error err =>
      rw [ebind_err]
      constructor
      · intro h; cases h
      · rintro ⟨x, hx, -⟩; cases hx
  | ok a =>
      rw [ebind_ok]
      constructor
      · intro h; exact ⟨a, rfl, h⟩
      · rintro ⟨x, hx, hf⟩; cases hx; exact hf

theorem pure_eq_ok {ε α : Type} (a b : α) :
    ((pure a : Except ε α) = .ok b) ↔ a = b := by
  rw [epure_eq]
  exact ⟨fun h => by cases h; rfl, fun h => by rw [h]⟩

deriving instance DecidableEq for Except

theorem length_unravelAll (sh : List Nat) :
    (unravelAll sh).length = prodN sh := by
  induction sh with
  | nil => rfl
  | cons d rest ih =>
      simp only [unravelAll, List.length_flatMap]
      have h1 : (List.length ∘ fun i : Nat =>
          List.map (i :: ·) (unravelAll rest)) = fun _ : Nat => prodN rest := by
        funext i; simp [ih]
      rw [h1, List.map_const', List.sum_replicate, List.length_range,
        smul_eq_mul]
      rfl

theorem remap_data_length {α : Type} [Inhabited α] (a : NDArray α)
    (sh : List Nat) (f : List Nat → List Nat) :
    (remap a sh f).data.length = prodN sh := by
  simp [remap, length_unravelAll]

theorem flatten_const_length {α : Type} (L : List (List α)) (k : Nat)
    (h : ∀ l ∈ L, l.length = k) : L.flatten.length = L.length * k := by
  induction L with
  | nil => simp
  | cons x xs ih =>
      simp only [List.flatten_cons, List.length_append, List.length_cons]
      rw [h x (by simp), ih (fun l hl => h l (by simp [hl]))]
      ring

theorem zipWith_getD_of_lt {α β γ : Type} (f : α → β → γ) (d : γ) (da : α)
    (db : β) : ∀ (as : List α) (bs : List β) (i : Nat),
    i < (List.zipWith f as bs).length →
    (List.zipWith f as bs).getD i d = f (as.getD i da) (bs.getD i db) := by
  intro as
  induction as with
  | nil => intro bs i h; simp at h
  | cons a as ih =>
      intro bs i h
      cases bs with
      | nil => simp at h
      | cons b bs =>
          cases i with
          | zero => simp [List.getD]
          | succ i =>
              simp only [List.zipWith_cons_cons, List.getD_cons_succ]
              refine ih bs i ?_
              simp only [List.zipWith_cons_cons, List.length_cons] at h
              omega

theorem pyRound_of_dvd (n t : Nat) (ht : 0 < t) (hd : t ∣ n) :
    pyRound (qdiv (n : ℚ) (t : ℚ)) = ((n / t : Nat) : Int) := by
  have hcast : ((n / t : Nat) : ℚ) = (n : ℚ) / (t : ℚ) :=
    Nat.cast_div hd (by exact_mod_cast ht.ne')
  rw [qdiv_eq, ← hcast]
  simp only [pyRound, qsub_eq, Int.floor_natCast, Int.cast_natCast, sub_self]
  rw [if_pos (by decide : (0 : ℚ) < mkRat 1 2)]

/-! ### Concrete inputs used by the claims -/

/-- The spec's example header: matrix `4,4`, roi `1.0,1.0,0.1`,
`bigendian = 0`. -/
def exLines1 : List String :=
  ["int matrix[] = \x7b4,4\x7d;",
   "float roi[] = \x7b1.0,1.0,0.1\x7d;",
   "int bigendian = 0;"]

/-- 16 little-endian float payload slots: 64 bytes. -/
def exPayload1 : List Nat := List.range 64

/-- The header the embedding computes for `exLines1` (checked below). -/
def exHeader1 : Header :=
  { shape := [4, 4], endian := .str "0",
    real_voxel_dim := some [10, 10, 1], fmt := ">16f" }

/-! ### C1 -/

/-- C1 (code bug): for the header line `int bigendian = 0;` the claimed
normalization (`0` becomes the little-endian marker and `fmt` gets a `<`
prefix) does not happen: the `type(raw_header['endian']) is int` guard
never fires because the regex capture is a string, so `endian` stays the
string `"0"` and `fmt` is computed as the big-endian `">16f"`. -/
theorem c1_endian_normalization_dead :
    (parseHeader exLines1 >>= computeFmt) = .ok exHeader1 ∧
    exHeader1.endian = .str "0" ∧ exHeader1.fmt = ">16f" := by
  refine ⟨by decide, rfl, rfl⟩

/-! ### C2 -/

/-- C2 (code bug): on a single-file input, the pair `load_fdf` returns has
the header mapping first and the decoded array second (because
`read_file` returns `(raw_header, data)` and `load_fdf` unpacks that as
`data, header`), contradicting the claimed `(array, header)` order: on
the example file the first component carries the `fmt` and declared-shape
header fields and the second is the 4x4 array. -/
theorem c2_single_file_pair_order :
    (load_fdf_single exLines1 exPayload1).map
        (fun p => (p.1.fmt, p.1.shape, p.2.shape)) =
      .ok (">16f", ([4, 4] : List Int), ([4, 4] : List Nat)) := by
  decide

/-! ### C4 -/

/-- C4 (confirmed): on zero input files the assembler fails -- the
starred-zip unpacking raises ValueError -- and never returns an empty,
default, or None result (the `return None` guard in the source is dead
code behind that failure). -/
theorem c4_empty_directory_fails :
    read_directory [] = .error "ValueError: not enough values to unpack" :=
  rfl

/-! ### C3 -/

/-- Is an `Except` value a success? -/
def exceptOk {ε α : Type} : Except ε α → Bool
  | .ok _ => true
  | .error _ => false

/-- Header declaring shape `[2, 2]` (16 payload bytes expected). -/
def exLines3 : List String :=
  ["int matrix[] = \x7b2,2\x7d;",
   "float roi[] = \x7b1.0,1.0\x7d;"]

/-- An oversized payload: 20 bytes where `product(shape) * 4 = 16`. -/
def exPayload3 : List Nat := List.range 20

/-- C3 counterexample: a file whose payload size (20 bytes) differs from
`product(shape) * 4 = 16` is read successfully -- the end-relative seek
silently decodes the last 16 bytes of the file, misaligned by 4 bytes
into the payload -- instead of failing with a decode error as claimed. -/
theorem c3_mismatch_read_succeeds :
    (parseHeader exLines3).map (fun h => h.shape.prod) = .ok (4 : Int) ∧
    exPayload3.length = 20 ∧ (20 : Nat) ≠ 4 * 4 ∧
    exceptOk (read_file exLines3 exPayload3) = true := by
  refine ⟨by decide, by decide, by decide, by decide⟩

/-- C3 as amended: the decode step fails exactly when the whole file
holds fewer than `product(shape) * 4` bytes; whenever the file is at
least that long it succeeds and returns precisely the last
`product(shape) * 4` bytes of the file, regardless of where the
form-feed boundary lies (so truncated-but-long-enough or oversized
payloads are silently decoded, misaligned). -/
theorem c3_decode_size_gate :
    ∀ (bytes : List Nat) (nb : Int), 0 ≤ nb →
    (nb.toNat * 4 ≤ bytes.length →
      seekUnpack bytes nb = .ok (bytes.drop (bytes.length - nb.toNat * 4)) ∧
      (bytes.drop (bytes.length - nb.toNat * 4)).length = nb.toNat * 4) ∧
    (bytes.length < nb.toNat * 4 →
      seekUnpack bytes nb = .error "OSError: Invalid argument") := by
  intro bytes nb h0
  constructor
  · intro hle
    refine ⟨?_, ?_⟩
    · rw [seekUnpack, if_pos ⟨h0, hle⟩]
    · rw [List.length_drop]
      omega
  · intro hlt
    rw [seekUnpack, if_neg]
    rintro ⟨-, hle⟩
    omega

/-- Witness for `c3_decode_size_gate` at a concrete 20-byte file with
`nb = 4`. -/
theorem c3_decode_size_gate_witness :
    seekUnpack (List.range 20) 4 =
      .ok ((List.range 20).drop ((List.range 20).length - (4 : Int).toNat * 4)) ∧
    ((List.range 20).drop ((List.range 20).length - (4 : Int).toNat * 4)).length =
      (4 : Int).toNat * 4 :=
  (c3_decode_size_gate (List.range 20) 4 (by decide)).1 (by decide)

/-! ### C5 -/

/-- C5 (confirmed): in the geometric normalization, the `(2, 1, 0)` axis
permutation is applied to the reshaped-and-squeezed array exactly on the
code's `len(shape) != 2` branch -- so it is applied for every declared
shape of length greater than 2 and skipped for length exactly 2 -- and in
both cases the result then gets three 90-degree rotations in the plane of
the first two axes followed by a reversal of the second axis.  The third
conjunct instantiates the whole pipeline on declared shape `[2, 3, 4]`
with flat data `0..23`. -/
theorem c5_axis_permutation :
    ∀ (shape : List Nat) (flat : List Nat),
    (2 < shape.length →
      normalize_data shape flat = do
        let a0 ← ndreshape shape.reverse flat
        let a2 ← transposeAx [2, 1, 0] a0.squeeze
        let a3 ← rot90 a2
        let a4 ← rot90 a3
        let a5 ← rot90 a4
        flipAxis1 a5) ∧
    (shape.length = 2 →
      normalize_data shape flat = do
        let a0 ← ndreshape shape.reverse flat
        let a3 ← rot90 a0.squeeze
        let a4 ← rot90 a3
        let a5 ← rot90 a4
        flipAxis1 a5) ∧
    (normalize_data [2, 3, 4] (List.range 24) =
      .ok ⟨[3, 2, 4], [0, 6, 12, 18, 1, 7, 13, 19, 2, 8, 14, 20,
                       3, 9, 15, 21, 4, 10, 16, 22, 5, 11, 17, 23]⟩) := by
  intro shape flat
  refine ⟨?_, ?_, by decide⟩
  · intro hgt
    have hne : shape.length ≠ 2 := by omega
    simp [normalize_data, hne]
  · intro heq
    simp [normalize_data, heq, ebind_ok]

/-- Witness for `c5_axis_permutation`: the transposed branch taken at the
concrete 3-dimensional declared shape `[2, 3, 4]`. -/
theorem c5_axis_permutation_witness :
    normalize_data [2, 3, 4] (List.range 24) = (do
      let a0 ← ndreshape ([2, 3, 4] : List Nat).reverse (List.range 24)
      let a2 ← transposeAx [2, 1, 0] a0.squeeze
      let a3 ← rot90 a2
      let a4 ← rot90 a3
      let a5 ← rot90 a4
      flipAxis1 a5) :=
  (c5_axis_permutation [2, 3, 4] (List.range 24)).1 (by decide)

/-! ### C7 -/

/-- The spec example's region-of-interest line. -/
def exRoiLine : String := "float roi[] = \x7b1.0,1.0,0.1\x7d;"

/-- Header state after processing `exRoiLine` from the initial header. -/
def exH7 : Header := { real_voxel_dim := some [10, 10, 1] }

/-- C7 (confirmed): every number extracted from a region-of-interest line
is multiplied by 10 to form `real_voxel_dim` (second conjunct), the final
voxel dimensions satisfy `voxel_dim[i] = real_voxel_dim[i] / shape[i]`
elementwise (first conjunct), and on the spec's example (roi
`\x7b1.0,1.0,0.1\x7d`, shape `[4,4]`) the pipeline yields
`real_voxel_dim = [10,10,1]` and `voxel_dim = [5/2, 5/2]` (third
conjunct). -/
theorem c7_voxel_scaling :
    (∀ (shape : List Int) (rvd : List ℚ) (i : Nat),
        i < (voxelDimOf shape rvd).length →
        (voxelDimOf shape rvd).getD i 0 =
          rvd.getD i 0 / ((shape.getD i 1 : Int) : ℚ)) ∧
    (∀ (h : Header) (line : List Char) (hh : Header),
        ¬ pyFind line ("abscissa").data > 0 →
        pyFind line ("roi").data > 0 →
        processLine h line = .ok hh →
        hh.real_voxel_dim = some ((findFloats line).map (fun q => q * 10))) ∧
    ((read_file exLines1 exPayload1).map
        (fun p => (p.1.real_voxel_dim, p.1.voxel_dim)) =
      .ok (some [10, 10, 1], [mkRat 5 2, mkRat 5 2])) := by
  refine ⟨?_, ?_, by decide⟩
  · intro shape rvd i hi
    simp only [voxelDimOf] at hi ⊢
    rw [zipWith_getD_of_lt _ _ 1 0 shape rvd i hi, qdiv_eq]
  · intro h line hh habs hroi hproc
    simp only [processLine] at hproc
    rw [except_bind_ok] at hproc
    obtain ⟨h1, htab, hbr⟩ := hproc
    rw [branchStep, if_neg habs, if_pos hroi] at hbr
    cases hbr
    have hq : (fun q : ℚ => qmul q 10) = fun q : ℚ => q * 10 :=
      funext fun q => qmul_eq q 10
    show some ((findFloats line).map (qmul · 10)) = _
    rw [hq]

/-- Witness for `c7_voxel_scaling` at the example roi line and shape. -/
theorem c7_voxel_scaling_witness :
    ((voxelDimOf [4, 4] [10, 10, 1]).getD 0 0 =
      ([10, 10, 1] : List ℚ).getD 0 0 / ((([4, 4] : List Int).getD 0 1 : Int) : ℚ)) ∧
    exH7.real_voxel_dim = some ((findFloats exRoiLine.data).map (fun q => q * 10)) :=
  ⟨c7_voxel_scaling.1 [4, 4] [10, 10, 1] 0 (by decide),
   c7_voxel_scaling.2.1 {} exRoiLine.data exH7 (by decide) (by decide) (by decide)⟩

/-! ### C8 -/

/-- A units-declaration line as it appears in the format. -/
def exAbsLine : String := "char  *abscissa[] = \x7b\"cm\", \"cm\"\x7d;"

/-- Header state after processing `exAbsLine` from the initial header. -/
def exH8 : Header := { xyz_units := some "mm", t_units := some "unknown" }

/-- C8 (confirmed): the unit normalization is total and idempotent --
`"cm"` becomes `"mm"`, every other token passes through unchanged, and
re-applying the normalization changes nothing -- and every successfully
processed units-declaration line sets `t_units` to `"unknown"` and
`xyz_units` to the normalized extracted 2-letter token. -/
theorem c8_unit_normalization :
    (normalizeUnit "cm" = "mm") ∧
    (∀ u : String, u ≠ "cm" → normalizeUnit u = u) ∧
    (∀ u : String, normalizeUnit (normalizeUnit u) = normalizeUnit u) ∧
    (∀ (h : Header) (line : List Char) (hh : Header),
        pyFind line ("abscissa").data > 0 →
        processLine h line = .ok hh →
        hh.t_units = some "unknown" ∧
        ∃ u, findUnit line = some u ∧
          hh.xyz_units = some (normalizeUnit (String.mk u))) := by
  refine ⟨rfl, ?_, ?_, ?_⟩
  · intro u hu; rw [normalizeUnit, if_neg hu]
  · intro u
    by_cases hu : u = "cm"
    · subst hu; rfl
    · simp [normalizeUnit, hu]
  · intro h line hh habs hproc
    simp only [processLine] at hproc
    rw [except_bind_ok] at hproc
    obtain ⟨h1, htab, hbr⟩ := hproc
    rw [branchStep, if_pos habs] at hbr
    cases hu : findUnit line with
    | none => rw [hu] at hbr; cases hbr
    | some u =>
        rw [hu] at hbr
        cases hbr
        exact ⟨rfl, u, rfl, rfl⟩

/-- Witness for `c8_unit_normalization` at a concrete `cm` units line. -/
theorem c8_unit_normalization_witness :
    exH8.t_units = some "unknown" ∧
    ∃ u, findUnit exAbsLine.data = some u ∧
      exH8.xyz_units = some (normalizeUnit (String.mk u)) :=
  c8_unit_normalization.2.2.2 {} exAbsLine.data exH8 (by decide) (by decide)

/-! ### C10 -/

/-- Header with a 2-entry matrix line and a 3-entry roi line. -/
def exLines10 : List String :=
  ["int matrix[] = \x7b2,3\x7d;",
   "float roi[] = \x7b1.0,2.0,3.0\x7d;"]

def exPayload10 : List Nat := List.range 24

/-- C10 (confirmed): `voxel_dim` always has `min(len(shape),
len(real_voxel_dim))` entries -- the `zip` silently drops surplus
entries -- and concretely a 3-entry roi with a 2-entry matrix yields a
2-entry `voxel_dim` (`[10/2, 20/3]`) with no error and no padding. -/
theorem c10_surplus_roi_dropped :
    (∀ (shape : List Int) (rvd : List ℚ),
        (voxelDimOf shape rvd).length = min shape.length rvd.length) ∧
    ((read_file exLines10 exPayload10).map
        (fun p => (p.1.voxel_dim, p.1.real_voxel_dim.map List.length,
                   p.1.shape.length)) =
      .ok ([5, mkRat 20 3], some 3, 2)) := by
  refine ⟨?_, by decide⟩
  intro shape rvd
  simp [voxelDimOf, List.length_zipWith]

/-! ### C9 -/

/-- First slice header of a 2-slice directory (as `read_file` would have
produced it for a 2x2 slice with roi `\x7b1.0,1.0,1.0\x7d` and
`array_dim = 1.000000`). -/
def exH9a : Header :=
  { shape := [2, 2], endian := .str "0", array_dim := some "1.000000",
    real_voxel_dim := some [10, 10, 10], voxel_dim := [5, 5], fmt := ">4f" }

/-- Second slice header (differs from the first in its slice number). -/
def exH9b : Header := { exH9a with sl := some "2" }

def exA9a : NDArray Nat := ⟨[2, 2], [0, 1, 2, 3]⟩

def exA9b : NDArray Nat := ⟨[2, 2], [4, 5, 6, 7]⟩

def exSlices9 : List (Header × NDArray Nat) := [(exH9a, exA9a), (exH9b, exA9b)]

/-- C9 counterexample: assembling a 2-slice directory mutates the first
slice's header in place -- `final_header = all_headers[0]` is an alias,
so after assembly the first slice's header holds the consolidated shape
`[2, 2, 2]` while it was produced with shape `[2, 2]`; slice results are
not immutable after creation. -/
theorem c9_first_header_mutated :
    (read_directory exSlices9).map (fun r => r.2.2.map Header.shape) =
      .ok [[2, 2, 2], [2, 2]] ∧
    exSlices9.map (fun s => s.1.shape) = [[2, 2], [2, 2]] ∧
    ([[2, 2, 2], [2, 2]] : List (List Int)) ≠ [[2, 2], [2, 2]] := by
  refine ⟨by decide, by decide, by decide⟩

/-- C9 as amended: during assembly only the first slice's header is
mutated -- it is aliased as the consolidated header, whose `shape` and
`voxel_dim` are overwritten in place -- while every later slice's header
is left untouched: after any successful assembly the post-state header
list is the consolidated header followed by the unchanged tail. -/
theorem c9_alias_mutation :
    ∀ (slices : List (Header × NDArray Nat)) (d : NDArray Nat) (fh : Header)
      (post : List Header),
      read_directory slices = .ok (d, fh, post) →
      post = fh :: (slices.map Prod.fst).tail := by
  intro slices d fh post h
  cases slices with
  | nil => simp [read_directory] at h
  | cons s rest =>
    obtain ⟨h0, a0⟩ := s
    simp only [read_directory] at h
    repeat'
      first
      | (rw [pure_eq_ok] at h
         simp only [Prod.mk.injEq] at h
         obtain ⟨-, h2, h3⟩ := h
         rw [← h3, ← h2]
         simp)
      | (rw [except_bind_ok] at h
         obtain ⟨x, hx, h⟩ := h
         try cases hx)
      | split at h

/-- The consolidated header `read_directory` produces for `exSlices9` --
the post-assembly state of the first slice's header. -/
def fhC9 : Header := { exH9a with shape := [2, 2, 2], voxel_dim := [5, 5, 10] }

/-- The assembled volume for `exSlices9`. -/
def dC9 : NDArray Nat := ⟨[2, 2, 2], [0, 4, 1, 5, 2, 6, 3, 7]⟩

/-- Witness for `c9_alias_mutation` at the concrete 2-slice directory. -/
theorem c9_alias_mutation_witness :
    (fhC9 :: [exH9b] : List Header) = fhC9 :: (exSlices9.map Prod.fst).tail :=
  c9_alias_mutation exSlices9 dC9 fhC9 (fhC9 :: [exH9b]) (by decide)

/-! ### C6 -/

/-- C6 (confirmed): for a directory of 2D slices whose `array_dim` parses
to an integer `time > 1` dividing the stacked third-axis length `n`
(divisibility is exactly the condition under which the final reshape can
succeed, and under it the code's `round(n / time)` equals the integer
division `n / time`), the assembler stores the split shape
`(a, b, n / time, time)`, appends exactly one unit voxel-spacing entry
after the length-mismatch extension, and reshapes the stacked data to
that 4D shape. -/
theorem c6_time_axis_split :
    ∀ (h0 : Header) (a0 : NDArray Nat) (rest : List (Header × NDArray Nat))
      (a b time : Nat) (rvd : List ℚ) (s : String) (qq : ℚ),
      (∀ p ∈ (h0, a0) :: rest, p.2.shape = [a, b] ∧ p.2.data.length = a * b) →
      h0.array_dim = some s →
      pyFloatOfString s = .ok qq →
      pyTrunc qq = ((time : Nat) : Int) →
      1 < time →
      time ∣ rest.length + 1 →
      h0.voxel_dim.length = 2 →
      h0.real_voxel_dim = some rvd →
      ∃ (arr : NDArray Nat) (fh : Header) (post : List Header),
        read_directory ((h0, a0) :: rest) = .ok (arr, fh, post) ∧
        arr.shape = [a, b, (rest.length + 1) / time, time] ∧
        fh.shape = [(a : Int), (b : Int),
                    (((rest.length + 1) / time : Nat) : Int),
                    ((time : Nat) : Int)] ∧
        fh.voxel_dim = h0.voxel_dim ++ rvd.drop 2 ++ [1] := by
  intro h0 a0 rest a b time rvd s qq hsh hs hq htr h1t hdvd hvd hrvd
  obtain ⟨ha0s, ha0l⟩ := hsh (h0, a0) (List.mem_cons_self _ _)
  have hall : ((rest.map Prod.snd).all fun x => x.shape == a0.shape) = true := by
    rw [List.all_eq_true]
    intro x hx
    obtain ⟨p, hp, rfl⟩ := List.mem_map.mp hx
    rw [beq_iff_eq, (hsh p (List.mem_cons_of_mem _ hp)).1, ha0s]
  obtain ⟨D, hstack, hD⟩ : ∃ D : List Nat,
      stack (a0 :: rest.map Prod.snd) =
        .ok ⟨[rest.length + 1, a, b], D⟩ ∧
      D.length = (rest.length + 1) * (a * b) := by
    refine ⟨((a0 :: rest.map Prod.snd).map (fun x => x.data)).flatten, ?_, ?_⟩
    · simp only [stack]
      rw [if_pos hall, ha0s]
      simp
    · have hmem : ∀ l ∈ (a0 :: rest.map Prod.snd).map (fun x => x.data),
          l.length = a * b := by
        intro l hl
        obtain ⟨x, hx, rfl⟩ := List.mem_map.mp hl
        rcases List.mem_cons.mp hx with rfl | hx2
        · exact ha0l
        · obtain ⟨p, hp, rfl⟩ := List.mem_map.mp hx2
          exact (hsh p (List.mem_cons_of_mem _ hp)).2
      rw [flatten_const_length _ _ hmem, List.length_map, List.length_cons,
        List.length_map]
  obtain ⟨T, htrans, hTsh, hTlen⟩ : ∃ T : NDArray Nat,
      transposeAx [1, 2, 0] (⟨[rest.length + 1, a, b], D⟩ : NDArray Nat) =
        .ok T ∧
      T.shape = [a, b, rest.length + 1] ∧
      T.data.length = prodN [a, b, rest.length + 1] := by
    refine ⟨remap ⟨[rest.length + 1, a, b], D⟩ [a, b, rest.length + 1]
      (fun ix => (List.range 3).map fun j =>
        ix.getD (([1, 2, 0] : List Nat).indexOf j) 0), ?_, rfl,
      remap_data_length _ _ _⟩
    rfl
  have h1tz : (1 : Int) < ((time : Nat) : Int) := by exact_mod_cast h1t
  have htimepos : 0 < time := by omega
  have hcancel : (rest.length + 1) / time * time = rest.length + 1 :=
    Nat.div_mul_cancel hdvd
  refine ⟨⟨[a, b, (rest.length + 1) / time, time], T.data⟩,
    { h0 with
        shape := [(a : Int), (b : Int),
                  (((rest.length + 1) / time : Nat) : Int),
                  ((time : Nat) : Int)],
        voxel_dim := h0.voxel_dim ++ rvd.drop 2 ++ [1] },
    { h0 with
        shape := [(a : Int), (b : Int),
                  (((rest.length + 1) / time : Nat) : Int),
                  ((time : Nat) : Int)],
        voxel_dim := h0.voxel_dim ++ rvd.drop 2 ++ [1] } ::
      rest.map Prod.fst, ?_, rfl, rfl, rfl⟩
  have hgetd0 : T.shape.getD 0 0 = a := by rw [hTsh]; rfl
  have hgetd1 : T.shape.getD 1 0 = b := by rw [hTsh]; rfl
  have hgetd2 : T.shape.getD 2 0 = rest.length + 1 := by rw [hTsh]; rfl
  have hdrop : T.shape.length - 1 = 2 := by rw [hTsh]; rfl
  have hround : pyRound (qdiv ((rest.length + 1 : Nat) : ℚ)
      (((time : Nat) : Int) : ℚ)) = (((rest.length + 1) / time : Nat) : Int) := by
    rw [Int.cast_natCast]
    exact pyRound_of_dvd _ _ htimepos hdvd
  have htns : toNatShape [(a : Int), (b : Int),
      (((rest.length + 1) / time : Nat) : Int), ((time : Nat) : Int)] =
      .ok [a, b, (rest.length + 1) / time, time] := by
    rw [toNatShape, if_pos]
    · simp only [List.map_cons, List.map_nil, Int.toNat_natCast]
    · intro d hd
      simp only [List.mem_cons, List.not_mem_nil, or_false] at hd
      rcases hd with rfl | rfl | rfl | rfl <;> exact Int.natCast_nonneg _
  have hresh : ndreshape [a, b, (rest.length + 1) / time, time] T.data =
      .ok ⟨[a, b, (rest.length + 1) / time, time], T.data⟩ := by
    rw [ndreshape, if_pos]
    rw [hTlen]
    simp only [prodN, List.foldr_cons, List.foldr_nil, mul_one, hcancel]
  simp only [read_directory]
  rw [hstack]
  simp only [ebind_ok]
  split
  case isFalse h4 => simp at h4
  case isTrue h4 =>
    rw [htrans]
    simp only [ebind_ok]
    split
    case isFalse hne => simp [hTsh, hvd] at hne
    case isTrue hne =>
      rw [hrvd]
      simp only [epure_eq, ebind_ok]
      rw [hs]
      simp only [epure_eq, ebind_ok]
      rw [hq]
      simp only [ebind_ok]
      rw [htr]
      split
      case isFalse hlt => exact absurd h1tz hlt
      case isTrue hlt =>
        rw [hgetd0, hgetd1, hgetd2, hround, htns]
        simp only [ebind_ok]
        rw [hresh]
        simp only [ebind_ok, epure_eq]
        rw [hdrop]

/-- Per-slice header of the claim's concrete instance: `array_dim`
declared as `4.000000`. -/
def exH6 : Header :=
  { shape := [1, 1], endian := .str "0", array_dim := some "4.000000",
    real_voxel_dim := some [10, 10, 1], voxel_dim := [10, 10], fmt := ">1f" }

def exA6 : NDArray Nat := ⟨[1, 1], [7]⟩

/-- Witness for `c6_time_axis_split`: 40 stacked slices with
`array_dim = 4` split the third axis into `(10, 4)` and append exactly
one unit voxel-spacing entry. -/
theorem c6_time_axis_split_witness :
    ∃ (arr : NDArray Nat) (fh : Header) (post : List Header),
      read_directory ((exH6, exA6) :: List.replicate 39 (exH6, exA6)) =
        .ok (arr, fh, post) ∧
      arr.shape = [1, 1, ((List.replicate 39 (exH6, exA6)).length + 1) / 4, 4] ∧
      fh.shape = [((1 : Nat) : Int), ((1 : Nat) : Int),
                  ((((List.replicate 39 (exH6, exA6)).length + 1) / 4 : Nat) : Int),
                  ((4 : Nat) : Int)] ∧
      fh.voxel_dim = exH6.voxel_dim ++ ([10, 10, 1] : List ℚ).drop 2 ++ [1] :=
  c6_time_axis_split exH6 exA6 (List.replicate 39 (exH6, exA6)) 1 1 4
    [10, 10, 1] "4.000000" 4 (by decide) rfl (by decide) (by decide)
    (by decide) (by decide) (by decide) rfl

end VarianFdf
